import Mathlib

/-!
Shallow embedding of the core game engine of the red-princess repository
(hex grid math, seeded RNG, effect table, room/draft model, movement and
placement state machine), together with theorems checking the
natural-language specification against this embedding.

JavaScript numbers are modelled as follows: quantities that the source
keeps as (conceptually integer) counters are `Int`; the RNG state, which
the source forces through 32-bit coercions on every draw, is a `Nat`
holding the unsigned 32-bit pattern; the values produced by `float()` are
exact rationals `s / 0xFFFFFFFF`.
-/

namespace RedPrincess

/-- Direction of movement on the grid (source: `Direction` typedef). -/
inductive Direction where
  | NORTH
  | NORTH_EAST
  | SOUTH_EAST
  | SOUTH
  | SOUTH_WEST
  | NORTH_WEST
deriving DecidableEq, Repr

open Direction

/-- Source: `DIRECTION_VALUES` (clockwise listing of the six directions). -/
def DIRECTION_VALUES : List Direction :=
  [NORTH, NORTH_EAST, SOUTH_EAST, SOUTH, SOUTH_WEST, NORTH_WEST]

/-- A coordinate on the grid, identified by its row and column. -/
structure Coord where
  row : Int
  col : Int
deriving DecidableEq, Repr

/-- Source: `add(x, y)` — componentwise coordinate addition. -/
def add (x y : Coord) : Coord := ⟨x.row + y.row, x.col + y.col⟩

/-- Source: `HEX_DIRECTIONS_ODD_Q` offset table (odd columns). -/
def HEX_DIRECTIONS_ODD_Q : Direction → Coord
  | NORTH => ⟨-1, 0⟩
  | NORTH_EAST => ⟨0, 1⟩
  | SOUTH_EAST => ⟨1, 1⟩
  | SOUTH => ⟨1, 0⟩
  | SOUTH_WEST => ⟨1, -1⟩
  | NORTH_WEST => ⟨0, -1⟩

/-- Source: `HEX_DIRECTIONS_EVEN_Q` offset table (even columns). -/
def HEX_DIRECTIONS_EVEN_Q : Direction → Coord
  | NORTH => ⟨-1, 0⟩
  | NORTH_EAST => ⟨-1, 1⟩
  | SOUTH_EAST => ⟨0, 1⟩
  | SOUTH => ⟨1, 0⟩
  | SOUTH_WEST => ⟨0, -1⟩
  | NORTH_WEST => ⟨-1, -1⟩

/-- Source: `tileTowards(position, direction)`.  The parity test
`position.col % 2 === 0` of the source classifies exactly the even
columns (for negative columns JavaScript yields `-0 === 0`), which is
also what `Int.emod … 2 = 0` classifies. -/
def tileTowards (position : Coord) (direction : Direction) : Coord :=
  add position
    (if position.col % 2 = 0 then HEX_DIRECTIONS_EVEN_Q direction
     else HEX_DIRECTIONS_ODD_Q direction)

/-- Source: `opposite(direction)` (total on the six directions; the
source's trailing `throw` is unreachable for well-typed input). -/
def opposite : Direction → Direction
  | NORTH => SOUTH
  | NORTH_EAST => SOUTH_WEST
  | SOUTH_EAST => NORTH_WEST
  | SOUTH => NORTH
  | SOUTH_WEST => NORTH_EAST
  | NORTH_WEST => SOUTH_EAST

/-! ## Seeded RNG (source: `class SeededRNG` and the module-level helpers) -/

namespace SeededRNG

/-- One xorshift update of the stored seed, as performed identically at
the start of both `float()` and `int32()`:
`seed ^= seed << 13; seed ^= seed >> 17; seed ^= seed << 5;`
where every JavaScript bitwise operation coerces to 32 bits and `>>` is
the sign-propagating (arithmetic) right shift.  The state is the
unsigned 32-bit pattern of the seed. -/
def nextSeed (s : Nat) : Nat :=
  let s1 := s ^^^ ((s <<< 13) % 2 ^ 32)
  let s2 := s1 ^^^ (if s1 < 2 ^ 31 then s1 >>> 17 else s1 >>> 17 + 0xFFFF8000)
  s2 ^^^ ((s2 <<< 5) % 2 ^ 32)

/-- Signed 32-bit reading of an unsigned 32-bit pattern (`seed | 0`). -/
def toInt32 (s : Nat) : Int :=
  if s < 2 ^ 31 then (s : Int) else (s : Int) - 2 ^ 32

/-- Source: `SeededRNG.float()` — advance the seed, then return
`(seed >>> 0) / 0xFFFFFFFF` (modelled exactly, as a rational). -/
def float (s : Nat) : ℚ × Nat :=
  ((nextSeed s : ℚ) / 0xFFFFFFFF, nextSeed s)

/-- Source: `SeededRNG.int32()` — advance the seed, then return `seed | 0`. -/
def int32 (s : Nat) : Int × Nat :=
  (toInt32 (nextSeed s), nextSeed s)

/-- Source: `SeededRNG.setSeed(seed)` — `this.#seed = seed ?? fallback;`
only `null`/`undefined` trigger the random fallback (modelled as an
explicit parameter).  The stored value is kept as its 32-bit pattern,
which is the reading every later draw applies to it. -/
def setSeed (seed : Option Int) (fallback : Nat) : Nat :=
  match seed with
  | some s => (s % 2 ^ 32).toNat
  | none => fallback

end SeededRNG

/-- Source: `randomFloat()` (delegates to the global generator). -/
def randomFloat (s : Nat) : ℚ × Nat := SeededRNG.float s

/-- Source: `randomRange(min, max)` = `floor(randomFloat() * (max - min)) + min`. -/
def randomRange (min max : Int) (s : Nat) : Int × Nat :=
  let (f, s') := randomFloat s
  (⌊f * ((max : ℚ) - (min : ℚ))⌋ + min, s')

/-- Source: `randomInt32(bound = 0)` — `bound ? randomRange(0, bound) : rng.int32()`. -/
def randomInt32 (bound : Int) (s : Nat) : Int × Nat :=
  if bound = 0 then SeededRNG.int32 s else randomRange 0 bound s

/-- Source: `randomBool()` = `randomInt32() % 2 === 0` (JavaScript remainder
of an even/odd int32 agrees with parity, which `Int.emod … 2 = 0` tests). -/
def randomBool (s : Nat) : Bool × Nat :=
  let (v, s') := randomInt32 0 s
  (v % 2 = 0, s')

/-- Source: `randomElement(items)` = `items[randomInt32(items.length)]`
(`none` when the drawn index falls outside the list, where the source
yields `undefined`). -/
def randomElement {α : Type} (items : List α) (s : Nat) : Option α × Nat :=
  let (i, s') := randomInt32 (items.length : Int) s
  (if h : 0 ≤ i ∧ i.toNat < items.length then some (items.get ⟨i.toNat, h.2⟩) else none, s')

/-! ## Room and hallway model -/

/-- Status of a hallway (source: `Hallway.status`).  The source value
`"open"` is spelled `open'` because `open` is a Lean keyword. -/
inductive HallStatus where
  | unknown
  | open'
  | blocked
deriving DecidableEq, Repr

/-- A hallway connecting rooms (source: `Hallway` typedef). -/
structure Hallway where
  status : HallStatus
  enabled : Bool
deriving DecidableEq, Repr

/-- The six directional hallway slots of a room (source:
`Room.hallways`, a record with exactly the six direction keys). -/
structure Hallways where
  n : Hallway
  ne : Hallway
  se : Hallway
  s : Hallway
  sw : Hallway
  nw : Hallway
deriving DecidableEq, Repr

/-- Read the slot of a direction (source: `room.hallways[direction]`). -/
def Hallways.get (h : Hallways) : Direction → Hallway
  | NORTH => h.n
  | NORTH_EAST => h.ne
  | SOUTH_EAST => h.se
  | SOUTH => h.s
  | SOUTH_WEST => h.sw
  | NORTH_WEST => h.nw

/-- Overwrite the slot of a direction. -/
def Hallways.set (h : Hallways) (d : Direction) (v : Hallway) : Hallways :=
  match d with
  | NORTH => { h with n := v }
  | NORTH_EAST => { h with ne := v }
  | SOUTH_EAST => { h with se := v }
  | SOUTH => { h with s := v }
  | SOUTH_WEST => { h with sw := v }
  | NORTH_WEST => { h with nw := v }

/-- Overwrite only the `status` field of a slot (source:
`room.hallways[d].status = …`). -/
def Hallways.setStatus (h : Hallways) (d : Direction) (st : HallStatus) : Hallways :=
  h.set d ⟨st, (h.get d).enabled⟩

/-- What can be found in a room (source: `Item` typedef). -/
inductive Item where
  | keys
  | lock
  | gems
  | steps
deriving DecidableEq, Repr

/-- Identifiers of the effect registry (source: `EffectType` typedef). -/
inductive EffectType where
  | noop
  | taxes
  | garden
  | shop
  | extraSteps
  | money
  | extraKey
  | exit
deriving DecidableEq, Repr

/-- The event bindings of a room (source: `Room.events`, an
`enter`/`exit`/`use` record of effect ids). -/
structure RoomEvents where
  enter : EffectType
  exit : EffectType
  use : EffectType
deriving DecidableEq, Repr

/-- Source: `class Room` (the data fields; the methods are modelled as
functions below, because the effect invocations mutate the game state). -/
structure Room where
  events : RoomEvents
  hallways : Hallways
  revealed : Bool
  triggerCount : Nat
  needsKey : Bool
  items : List Item
  coord : Coord
deriving DecidableEq, Repr

/-- Default hallway record of a fresh room (source: `Room.#defaults`). -/
def defaultHallways : Hallways :=
  ⟨⟨.unknown, true⟩, ⟨.unknown, true⟩, ⟨.unknown, true⟩,
   ⟨.unknown, true⟩, ⟨.unknown, true⟩, ⟨.unknown, true⟩⟩

/-- A fresh room as produced by `new Room()` (source: `Room.#defaults`). -/
def defaultRoom : Room where
  events := ⟨.noop, .noop, .noop⟩
  hallways := defaultHallways
  revealed := false
  triggerCount := 0
  needsKey := false
  items := []
  coord := ⟨-1, -1⟩

/-- The player resource ledger (source: the `#resources` object of
`Game`, created with the keys `steps`, `keys`, `gems`; `lock` is the
only other `Item` and starts absent).  `none` models an absent key. -/
structure Resources where
  steps : Option Int
  keys : Option Int
  lock : Option Int
  gems : Option Int
deriving DecidableEq, Repr

/-- Read a ledger slot (`resources[item]`, `none` for an absent key). -/
def Resources.get (r : Resources) : Item → Option Int
  | .steps => r.steps
  | .keys => r.keys
  | .lock => r.lock
  | .gems => r.gems

/-- Overwrite a ledger slot (making the key present). -/
def Resources.set (r : Resources) (item : Item) (v : Int) : Resources :=
  match item with
  | .steps => { r with steps := some v }
  | .keys => { r with keys := some v }
  | .lock => { r with lock := some v }
  | .gems => { r with gems := some v }

/-- Every stored counter of the ledger is non-negative. -/
def Resources.nonneg (r : Resources) : Prop :=
  ∀ item : Item, ∀ v : Int, r.get item = some v → 0 ≤ v

/-- What state the game is in (source: `GameState` typedef). -/
inductive GameState where
  | move
  | draft
deriving DecidableEq, Repr

/-- The three draft options (source: `Draft.options`, an array of
exactly three rooms). -/
structure Options3 where
  o0 : Room
  o1 : Room
  o2 : Room
deriving DecidableEq, Repr

/-- Index into the three options (source: `draft.options[index]`; the
index is kept clamped to `[0, 2]` by every writer). -/
def Options3.get (o : Options3) (i : Fin 3) : Room :=
  if i.val = 0 then o.o0 else if i.val = 1 then o.o1 else o.o2

/-- Overwrite one of the three options. -/
def Options3.set (o : Options3) (i : Fin 3) (r : Room) : Options3 :=
  if i.val = 0 then { o with o0 := r }
  else if i.val = 1 then { o with o1 := r }
  else { o with o2 := r }

/-- The three options as a list (for the `findIndex`/`forEach` loops). -/
def Options3.toList (o : Options3) : List Room := [o.o0, o.o1, o.o2]

/-- The ephemeral draft state (source: `Draft` typedef). -/
structure Draft where
  index : Fin 3
  position : Coord
  direction : Direction
  options : Options3
deriving DecidableEq, Repr

/-- The game session state (source: `class Game` plus the module-level
RNG seed, which the source keeps in a global `SeededRNG`; the grid is a
total function read and written only at valid coordinates). -/
structure Game where
  rows : Int
  cols : Int
  grid : Int → Int → Room
  player : Coord
  exitCoord : Coord
  currentState : GameState
  resources : Resources
  running : Bool
  lastEffect : String
  draft : Draft
  seed : Nat

/-- Source: `Game.at(row, col)` / `Game.atCoord(coord)`. -/
def Game.atCoord (g : Game) (c : Coord) : Room := g.grid c.row c.col

/-- Write the grid cell at a coordinate (the in-place array update). -/
def Game.setRoomAtCoord (g : Game) (c : Coord) (room : Room) : Game :=
  { g with grid := fun r cl => if r = c.row ∧ cl = c.col then room else g.grid r cl }

/-- Source: `Game.valid(row, col)` — bounds check against rows/cols. -/
def Game.valid (g : Game) (row col : Int) : Prop :=
  0 ≤ row ∧ row < g.rows ∧ 0 ≤ col ∧ col < g.cols

instance (g : Game) (row col : Int) : Decidable (g.valid row col) := by
  unfold Game.valid; infer_instance

/-- Source: `Game.validCoord(coord)`. -/
def Game.validCoord (g : Game) (c : Coord) : Prop := g.valid c.row c.col

instance (g : Game) (c : Coord) : Decidable (g.validCoord c) := by
  unfold Game.validCoord; infer_instance

/-- Source: `Game.isRevealed` / `isRevealedCoord`. -/
def Game.isRevealedCoord (g : Game) (c : Coord) : Bool := (g.atCoord c).revealed

/-- Source: `Game.isHidden` / `isHiddenCoord`. -/
def Game.isHiddenCoord (g : Game) (c : Coord) : Bool := !(g.atCoord c).revealed

/-- Source: `Game.getResource(item)` = `resources[item] ?? 0`. -/
def Game.getResource (g : Game) (item : Item) : Int :=
  (g.resources.get item).getD 0

/-- Source: `Game.addResource(item, amount = 1)` — inserts the key with
value `0` when absent, then adds `amount`. -/
def Game.addResource (g : Game) (item : Item) (amount : Int) : Game :=
  { g with resources := g.resources.set item ((g.resources.get item).getD 0 + amount) }

/-- Source: `Game.removeResource(item, amount = 1)` — only acts on a
present key; subtracts and clamps the result at `0`. -/
def Game.removeResource (g : Game) (item : Item) (amount : Int) : Game :=
  match g.resources.get item with
  | none => g
  | some v =>
      { g with resources := g.resources.set item (if v - amount < 0 then 0 else v - amount) }

/-- Source: `Game.setResource(item, amount)`. -/
def Game.setResource (g : Game) (item : Item) (amount : Int) : Game :=
  { g with resources := g.resources.set item amount }

/-- Source: `Game.pause()`. -/
def Game.pause (g : Game) : Game := { g with running := false }

/-- Source: `Game.movePlayerTo` / `movePlayerToCoord`. -/
def Game.movePlayerToCoord (g : Game) (c : Coord) : Game := { g with player := c }

/-- Source: `Game.placeRoom(room)` — writes the room into the grid at
its own coordinate, if that coordinate is valid. -/
def Game.placeRoom (g : Game) (room : Room) : Game :=
  if g.validCoord room.coord then g.setRoomAtCoord room.coord room else g

/-- Source: `Game.setState(state)`. -/
def Game.setState (g : Game) (st : GameState) : Game := { g with currentState := st }

/-! ## Effect registry -/

/-- A registry entry (source: `Effect` typedef).  `invoke` is the state
mutation the source writes as a closure over the global `gameState`. -/
structure Effect where
  invoke : Game → Game
  description : String
  triggerText : String
  triggerLimit : Int
  rarity : ℚ

/-- Source: the `Effects` table, entry by entry.  The literals `0.5`,
`0.3`, `0.4`, `0.9`, `0.7` are the exact rationals the source spells. -/
def Effects : EffectType → Effect
  | .extraSteps =>
      ⟨fun g => g.addResource .steps 2, "Take a rest.",
       "You have gained 2 extra steps.", -1, 1/2⟩
  | .extraKey =>
      ⟨fun g => g.addResource .keys 1, "Alohomora.",
       "You have found a key.", 1, 3/10⟩
  | .money =>
      ⟨fun g => g.addResource .gems 1, "What's that spark in the corner?",
       "You have found a gem.", 1, 3/10⟩
  | .taxes =>
      ⟨fun g => g.removeResource .gems 1, "Takes a toll on you.",
       "You have to pay taxes: 💎", -1, 3/10⟩
  | .garden =>
      ⟨fun g => g.setResource .steps 41, "Like starting again.",
       "Your steps have been reset.", -1, 2/5⟩
  | .shop =>
      ⟨fun g => if 5 ≤ g.getResource .gems
                then (g.addResource .keys 1).removeResource .gems 5 else g,
       "Buy your passage.",
       "You can buy a key for #5 with [Space].", 1, 9/10⟩
  | .exit =>
      ⟨fun g => g.pause, "", "You have won!", -1, 0⟩
  | .noop =>
      ⟨fun g => g, "A simple room.", "", -1, 7/10⟩

/-- Registration order of the registry (source: the insertion order of
the `Effects` object literal, which is the order `Object.keys` and
`Object.values` traverse). -/
def EffectsOrder : List EffectType :=
  [.extraSteps, .extraKey, .money, .taxes, .garden, .shop, .exit, .noop]

/-- The subtract-scan of `randomRoomPurpose`: walk the registry in
order, subtracting each rarity from the roll; the first entry where the
remainder drops to `≤ 0` wins; `none` models the trailing `throw`. -/
def pickEffect : List EffectType → ℚ → Option EffectType
  | [], _ => none
  | e :: rest, roll =>
      if roll - (Effects e).rarity ≤ 0 then some e
      else pickEffect rest (roll - (Effects e).rarity)

/-- Source: `randomRoomPurpose()` — sum the rarities, roll
`randomFloat() * sum`, then subtract-scan the registry. -/
def randomRoomPurpose (s : Nat) : Option EffectType × Nat :=
  let sum := (EffectsOrder.map fun e => (Effects e).rarity).sum
  let (f, s') := randomFloat s
  (pickEffect EffectsOrder (f * sum), s')

/-! ## Room event invocation -/

/-- Source: `Room.#invokeEvent(event)`, factored over the registry
entry: unlimited effects always invoke and record their trigger text;
limited effects invoke only while `triggerCount < triggerLimit` (then
increment the count); an exhausted effect only clears the last-effect
message. -/
def invokeEventWith (eff : Effect) (room : Room) (g : Game) : Room × Game :=
  if eff.triggerLimit = -1 then
    (room, { eff.invoke g with lastEffect := eff.triggerText })
  else if (room.triggerCount : Int) < eff.triggerLimit then
    ({ room with triggerCount := room.triggerCount + 1 },
     { eff.invoke g with lastEffect := eff.triggerText })
  else
    (room, { g with lastEffect := "" })

/-- Source: `Room.enter()` — invoke the bound `enter` effect.  Returns
the updated room (the in-place mutation of `this`) and game state. -/
def Room.enter (room : Room) (g : Game) : Room × Game :=
  invokeEventWith (Effects room.events.enter) room g

/-! ## Draft generation -/

/-- Source: `generateHallway(position, direction, draftRoom)`.  Only
valid neighbor cells consume a random draw. -/
def generateHallway (position : Coord) (direction : Direction)
    (draftRoom : Room) (g : Game) : Room × Game :=
  let chance : ℚ := 2/5
  let neighborPos := tileTowards position direction
  if g.validCoord neighborPos then
    let (f, s') := randomFloat g.seed
    let g := { g with seed := s' }
    if f < chance then
      if g.isHiddenCoord neighborPos then
        ({ draftRoom with hallways := draftRoom.hallways.set direction ⟨.unknown, true⟩ }, g)
      else if ((g.atCoord neighborPos).hallways.get (opposite direction)).enabled then
        ({ draftRoom with hallways := draftRoom.hallways.set direction ⟨.open', true⟩ }, g)
      else
        ({ draftRoom with hallways := draftRoom.hallways.set direction ⟨.blocked, true⟩ }, g)
    else
      ({ draftRoom with hallways := draftRoom.hallways.set direction ⟨.blocked, false⟩ }, g)
  else
    ({ draftRoom with hallways := draftRoom.hallways.set direction ⟨.blocked, false⟩ }, g)

/-- Source: `generateDraftRoom(index, direction)`.  `none` models the
unreachable `throw` of `randomRoomPurpose`.  The `needsKey` roll is
short-circuited: the key-granting room consumes no draw. -/
def generateDraftRoom (index : Fin 3) (direction : Direction) (g : Game) : Option Game :=
  match randomRoomPurpose g.seed with
  | (none, _) => none
  | (some purpose, s1) =>
      let g := { g with seed := s1 }
      let room := g.draft.options.get index
      let room := { room with events := ⟨purpose, .noop, .noop⟩ }
      let room :=
        if purpose = .extraKey then { room with items := room.items ++ [.keys] }
        else { room with items := [] }
      let (room, g) := DIRECTION_VALUES.foldl
        (fun (acc : Room × Game) d => generateHallway acc.2.draft.position d acc.1 acc.2)
        (room, g)
      let room := { room with hallways := room.hallways.set (opposite direction) ⟨.open', true⟩ }
      let (nk, g) :=
        if purpose ≠ .extraKey then
          let (b, s') := randomBool g.seed
          (b, { g with seed := s' })
        else (false, g)
      let room := { room with needsKey := nk }
      let room := { room with coord := ⟨-1, (index.val : Int)⟩ }
      some { g with draft := { g.draft with options := g.draft.options.set index room } }

/-- The `do … while (!canDraft)` loop of `refreshDrafts`, with explicit
fuel (the source loop is unbounded; `none` is fuel exhaustion or the
unreachable throw inside generation). -/
def refreshDraftsLoop (direction : Direction) : Nat → Game → Option Game
  | 0, _ => none
  | fuel + 1, g =>
      match generateDraftRoom 0 direction g with
      | none => none
      | some g =>
        match generateDraftRoom 1 direction g with
        | none => none
        | some g =>
          match generateDraftRoom 2 direction g with
          | none => none
          | some g =>
              let canDraft := g.getResource .keys != 0
                || (g.draft.options.toList.any fun room => !room.needsKey)
              if canDraft then some g else refreshDraftsLoop direction fuel g

/-- Source: `refreshDrafts()` — reset the selection index, then
regenerate the whole three-room batch until `canDraft` holds. -/
def refreshDrafts (fuel : Nat) (g : Game) : Option Game :=
  let direction := g.draft.direction
  let g := { g with draft := { g.draft with index := 0 } }
  refreshDraftsLoop direction fuel g

/-! ## Movement and placement -/

/-- Source: `updatePlayerPosition(direction)`.  `some` is a normal
return (including every silent no-op); the fuel only feeds the draft
regeneration loop. -/
def updatePlayerPosition (fuel : Nat) (direction : Direction) (g : Game) : Option Game :=
  if !g.running then some g else
  let newPosition := tileTowards g.player direction
  if ¬g.validCoord newPosition then some g else
  if g.getResource .steps ≤ 0 then some g else
  let hallways := (g.atCoord g.player).hallways
  if (hallways.get direction).enabled ∧ (hallways.get direction).status ≠ .blocked then
    if g.isHiddenCoord newPosition then
      let g := { g with draft := { g.draft with position := newPosition, direction := direction } }
      let g := g.setState .draft
      refreshDrafts fuel g
    else if ((g.atCoord newPosition).hallways.get (opposite direction)).enabled then
      let (room', g') := (g.atCoord newPosition).enter g
      let g' := g'.setRoomAtCoord newPosition room'
      let g' := g'.movePlayerToCoord newPosition
      some (g'.removeResource .steps 1)
    else some g
  else some g

/-- The neighbor-reconciliation `forEach` at the end of `placeRoom`:
for every direction, a revealed neighbor whose back-hallway is enabled
is flipped to `blocked` when the new room has no hallway there, and to
`open` when it has an enabled one. -/
def reconcileStep (newRoom : Room) (g : Game) (direction : Direction) : Game :=
  let neighborPos := tileTowards g.draft.position direction
  if g.validCoord neighborPos ∧ g.isRevealedCoord neighborPos then
    let neighbor := g.atCoord neighborPos
    if ¬(newRoom.hallways.get direction).enabled
        ∧ (neighbor.hallways.get (opposite direction)).enabled then
      g.setRoomAtCoord neighborPos
        { neighbor with hallways := neighbor.hallways.setStatus (opposite direction) .blocked }
    else if (newRoom.hallways.get direction).enabled
        ∧ (neighbor.hallways.get (opposite direction)).enabled then
      g.setRoomAtCoord neighborPos
        { neighbor with hallways := neighbor.hallways.setStatus (opposite direction) .open' }
    else g
  else g

/-- Source: the module-level `placeRoom()` — commit the selected draft
option (consuming a key when it is locked), re-run the movement, reset
the selection, reconcile the revealed neighbors and return to `move`. -/
def placeRoom (fuel : Nat) (g : Game) : Option Game :=
  let newRoom := g.draft.options.get g.draft.index
  if newRoom.needsKey ∧ g.getResource .keys = 0 then some g else
  let (newRoom, g) :=
    if newRoom.needsKey then ({ newRoom with needsKey := false }, g.removeResource .keys 1)
    else (newRoom, g)
  let newRoom := { newRoom with coord := g.draft.position }
  let g := g.placeRoom newRoom
  match updatePlayerPosition fuel g.draft.direction g with
  | none => none
  | some g =>
      let g := { g with draft := { g.draft with index := 0 } }
      let g := DIRECTION_VALUES.foldl (reconcileStep newRoom) g
      some (g.setState .move)

/-! ## Game construction -/

/-- Hallways of the spawn room at `(2, 0)` (source: `newGame`). -/
def playerStartHallways : Hallways :=
  ⟨⟨.unknown, true⟩, ⟨.unknown, true⟩, ⟨.unknown, true⟩,
   ⟨.unknown, true⟩, ⟨.blocked, true⟩, ⟨.blocked, true⟩⟩

/-- Hallways of the exit room at `(2, 9)` (source: `newGame`). -/
def exitHallways : Hallways :=
  ⟨⟨.unknown, true⟩, ⟨.blocked, true⟩, ⟨.blocked, true⟩,
   ⟨.unknown, true⟩, ⟨.unknown, true⟩, ⟨.unknown, true⟩⟩

/-- Source: `Game.newGame()` — the 5×13 grid of fresh rooms carrying
their own coordinates, the configured spawn and exit rooms, the initial
draft (three fresh revealed rooms), the initial ledger and flags.  The
seed stands for the module-level generator state. -/
def newGame (seed : Nat) : Game where
  rows := 5
  cols := 13
  grid := fun row col =>
    if row = 2 ∧ col = 0 then
      { defaultRoom with revealed := true, hallways := playerStartHallways, coord := ⟨2, 0⟩ }
    else if row = 2 ∧ col = 9 then
      { defaultRoom with events := ⟨.exit, .noop, .noop⟩, revealed := true,
                         hallways := exitHallways, coord := ⟨2, 9⟩ }
    else { defaultRoom with coord := ⟨row, col⟩ }
  player := ⟨2, 0⟩
  exitCoord := ⟨2, 9⟩
  currentState := .move
  resources := ⟨some 40, some 1, none, some 0⟩
  running := true
  lastEffect := "noop"
  draft :=
    { index := 0
      position := ⟨0, 0⟩
      direction := NORTH
      options := ⟨{ defaultRoom with revealed := true },
                  { defaultRoom with revealed := true },
                  { defaultRoom with revealed := true }⟩ }
  seed := seed

/-! ## Concrete states used by witnesses and counterexamples -/

/-- A draft option that needs a key, used by concrete scenarios.  Its
enter effect is `noop` unless overridden. -/
def lockedOption : Room :=
  { defaultRoom with needsKey := true, revealed := true }

/-- A fresh game paused in an active draft north of the spawn cell,
whose selected option is locked; `keys` as configured. -/
def draftScenario (opt : Room) (keys : Int) : Game :=
  { newGame 0 with
      currentState := .draft
      resources := ⟨some 40, some keys, none, some 0⟩
      draft :=
        { index := 0
          position := ⟨1, 0⟩
          direction := NORTH
          options := ⟨opt, defaultRoom, defaultRoom⟩ } }

/-- A game whose RNG state (seed 2338) is about to roll the `extraKey`
effect, and whose first draft option already carries a `keys` item from
an earlier regeneration. -/
def c9State : Game :=
  { newGame 2338 with
      draft := { (newGame 2338).draft with
                   options := ⟨{ defaultRoom with revealed := true, items := [.keys] },
                               defaultRoom, defaultRoom⟩ } }

/-- The state after one `generateDraftRoom(0, NORTH)` call on `c9State`. -/
def c9Result : Game := (generateDraftRoom 0 NORTH c9State).getD (newGame 0)

/-! ## Call sequences on the resource ledger -/

/-- One call to the ledger mutators of `Game` (used to state the
resource-floor property over arbitrary call sequences). -/
inductive ResCall where
  | add (item : Item) (amount : Int)
  | remove (item : Item) (amount : Int)
deriving DecidableEq, Repr

/-- The amount carried by a ledger call. -/
def ResCall.amount : ResCall → Int
  | .add _ a => a
  | .remove _ a => a

/-- Apply one ledger call (delegating to `Game.addResource` /
`Game.removeResource`). -/
def applyResCall (g : Game) : ResCall → Game
  | .add item amount => g.addResource item amount
  | .remove item amount => g.removeResource item amount

/-- Apply a sequence of ledger calls in order. -/
def applyResCalls (g : Game) (calls : List ResCall) : Game :=
  calls.foldl applyResCall g

/-- Iterate `Room.enter` on the same room instance, threading the
mutated room and game state (used for the trigger-limit property). -/
def enterTimes : Nat → Room → Game → Room × Game
  | 0, room, g => (room, g)
  | n + 1, room, g =>
      let (room', g') := room.enter g
      enterTimes n room' g'

/-! ## Theorems -/

/-- C1: for every coordinate and every one of the 6 directions, stepping
with `tileTowards(pos, dir)` and then stepping back from the result with
`tileTowards(result, opposite(dir))` returns exactly the original
coordinate; this covers both even-column and odd-column starting parity,
so the two offset tables are mutually inverse under `opposite`. -/
theorem tileTowards_opposite_roundtrip (pos : Coord) (dir : Direction) :
    tileTowards (tileTowards pos dir) (opposite dir) = pos := by
  obtain ⟨r, c⟩ := pos
  cases dir <;>
    simp [tileTowards, add, opposite, HEX_DIRECTIONS_EVEN_Q, HEX_DIRECTIONS_ODD_Q,
      Coord.mk.injEq] <;>
    split_ifs <;> simp_all [Coord.mk.injEq] <;> omega

/-- Stepping towards a neighbor never stays in place. -/
theorem tileTowards_ne (pos : Coord) (dir : Direction) : tileTowards pos dir ≠ pos := by
  obtain ⟨r, c⟩ := pos
  cases dir <;>
    simp [tileTowards, add, HEX_DIRECTIONS_EVEN_Q, HEX_DIRECTIONS_ODD_Q, Coord.mk.injEq] <;>
    split_ifs <;> simp_all [Coord.mk.injEq]

/-- An unsigned 32-bit value at least `2^31` has its sign bit set. -/
theorem testBit31_of_ge (x : Nat) (h1 : 2 ^ 31 ≤ x) (h2 : x < 2 ^ 32) :
    x.testBit 31 = true := by
  rw [Nat.testBit_to_div_mod]
  simp only [decide_eq_true_eq]
  omega

/-- An unsigned 32-bit value with a clear sign bit is below `2^31`. -/
theorem lt31_of_testBit (x : Nat) (h2 : x < 2 ^ 32) (h : x.testBit 31 = false) :
    x < 2 ^ 31 := by
  rw [Nat.testBit_to_div_mod] at h
  simp only [decide_eq_false_iff_not] at h
  omega

/-- The second xorshift stage `x ^= x >> 17` (with the sign-propagating
shift of the source) always clears the sign bit: the top 17 bits of the
shifted operand replicate the sign bit, so bit 31 cancels. -/
theorem step2_lt (y : Nat) (hy : y < 2 ^ 32) :
    y ^^^ (if y < 2 ^ 31 then y >>> 17 else y >>> 17 + 0xFFFF8000) < 2 ^ 31 := by
  split_ifs with h
  · exact Nat.xor_lt_two_pow h (by rw [Nat.shiftRight_eq_div_pow]; omega)
  · have hx : y ^^^ (y >>> 17 + 0xFFFF8000) < 2 ^ 32 :=
      Nat.xor_lt_two_pow hy (by rw [Nat.shiftRight_eq_div_pow]; omega)
    apply lt31_of_testBit _ hx
    rw [Nat.testBit_xor, testBit31_of_ge y (by omega) hy,
        testBit31_of_ge _ (by rw [Nat.shiftRight_eq_div_pow]; omega)
          (by rw [Nat.shiftRight_eq_div_pow]; omega)]
    rfl

/-- The third xorshift stage `x ^= x << 5` cannot turn a value with a
clear sign bit into `0xFFFFFFFF`: chasing bits 1, 6, 11, 16, 21, 26, 31
of an all-ones output forces the sign bit of the input to be set. -/
theorem step3_ne (w : Nat) (hw : w < 2 ^ 31) :
    w ^^^ ((w <<< 5) % 2 ^ 32) ≠ 2 ^ 32 - 1 := by
  intro hz
  have hb : ∀ i : Nat, (w ^^^ ((w <<< 5) % 2 ^ 32)).testBit i = decide (i < 32) := by
    intro i; rw [hz, Nat.testBit_two_pow_sub_one]
  have h1 := hb 1
  have h6 := hb 6
  have h11 := hb 11
  have h16 := hb 16
  have h21 := hb 21
  have h26 := hb 26
  have h31 := hb 31
  have hw31 : w.testBit 31 = false := Nat.testBit_lt_two_pow hw
  simp only [Nat.testBit_xor, Nat.testBit_mod_two_pow, Nat.testBit_shiftLeft]
    at h1 h6 h11 h16 h21 h26 h31
  simp_all

/-- The xorshift update keeps the state inside 32 bits. -/
theorem nextSeed_lt (s : Nat) (hs : s < 2 ^ 32) : SeededRNG.nextSeed s < 2 ^ 32 := by
  unfold SeededRNG.nextSeed
  have h1 : s ^^^ ((s <<< 13) % 2 ^ 32) < 2 ^ 32 :=
    Nat.xor_lt_two_pow hs (Nat.mod_lt _ (by norm_num))
  have h2 := step2_lt _ h1
  exact Nat.xor_lt_two_pow (by omega) (Nat.mod_lt _ (by norm_num))

/-- The xorshift update never produces the all-ones pattern. -/
theorem nextSeed_ne (s : Nat) (hs : s < 2 ^ 32) : SeededRNG.nextSeed s ≠ 2 ^ 32 - 1 := by
  unfold SeededRNG.nextSeed
  have h1 : s ^^^ ((s <<< 13) % 2 ^ 32) < 2 ^ 32 :=
    Nat.xor_lt_two_pow hs (Nat.mod_lt _ (by norm_num))
  exact step3_ne _ (step2_lt _ h1)

/-- Shared bound: one `float()` draw from any 32-bit state lies in `[0, 1)`. -/
theorem float_bounds (s : Nat) (hs : s < 2 ^ 32) :
    0 ≤ (SeededRNG.float s).1 ∧ (SeededRNG.float s).1 < 1 := by
  have h1 := nextSeed_lt s hs
  have h2 := nextSeed_ne s hs
  unfold SeededRNG.float
  constructor
  · positivity
  · rw [div_lt_one (by norm_num)]
    have h3 : SeededRNG.nextSeed s < 4294967295 := by omega
    exact_mod_cast h3

/-- C8: for every generator state, `SeededRNG.float()` returns a value
in the documented range `[0, 1)`: the xorshift step computed as
`(seed >>> 0) / 0xFFFFFFFF` never evaluates to exactly `1` because the
updated seed can never be the all-ones 32-bit pattern. -/
theorem float_in_unit_interval (s : Nat) (hs : s < 2 ^ 32) :
    0 ≤ (SeededRNG.float s).1 ∧ (SeededRNG.float s).1 < 1 :=
  float_bounds s hs

/-- Witness for C8 at the concrete state `0`. -/
theorem float_in_unit_interval_witness :
    (0 : Nat) < 2 ^ 32 ∧ (0 ≤ (SeededRNG.float 0).1 ∧ (SeededRNG.float 0).1 < 1) :=
  ⟨by norm_num, float_in_unit_interval 0 (by norm_num)⟩

/-- Shared scan fact: on a roll strictly below the registry's rarity sum
`17/5`, the subtract-scan always returns an entry, and that entry is
never the zero-rarity `exit` effect. -/
theorem pickEffect_total (roll : ℚ) (h1 : roll < 17/5) :
    (pickEffect EffectsOrder roll).isSome = true ∧
    pickEffect EffectsOrder roll ≠ some .exit := by
  simp only [EffectsOrder, pickEffect, Effects]
  split_ifs <;> simp_all <;> linarith

/-- C7: for every RNG state, `randomRoomPurpose()` terminates normally
without reaching its trailing `throw` statement, and it never returns
the `exit` effect (the only entry with rarity 0): the running remainder
cannot first drop to `≤ 0` at the zero-weight entry and always drops to
`≤ 0` by the end of the registry. -/
theorem randomRoomPurpose_total (s : Nat) (hs : s < 2 ^ 32) :
    ((randomRoomPurpose s).1.isSome = true) ∧ (randomRoomPurpose s).1 ≠ some .exit := by
  have hf := float_bounds s hs
  have hsum : (EffectsOrder.map fun e => (Effects e).rarity).sum = 17/5 := by
    simp [EffectsOrder, Effects]
    norm_num
  unfold randomRoomPurpose randomFloat
  simp only [hsum]
  refine pickEffect_total _ ?_
  calc (SeededRNG.float s).1 * (17/5) < 1 * (17/5) := by
        apply mul_lt_mul_of_pos_right hf.2; norm_num
    _ = 17/5 := one_mul _

/-- Witness for C7 at the concrete state `0`. -/
theorem randomRoomPurpose_total_witness :
    (0 : Nat) < 2 ^ 32 ∧
      (((randomRoomPurpose 0).1.isSome = true) ∧ (randomRoomPurpose 0).1 ≠ some .exit) :=
  ⟨by norm_num, randomRoomPurpose_total 0 (by norm_num)⟩

/-- C10: seed 0 is a fixed point of the generator.  `setSeed(0)` keeps
the zero seed (only `null`/`undefined` trigger the random fallback),
every iterate of the xorshift update stays at 0, `float()` and
`int32()` both return exactly 0, and the derived draws — `randomRange`,
`randomBool`, the `randomElement`/`randomInt32` index and the weighted
effect pick — all become constant. -/
theorem seed_zero_fixed_point :
    (∀ fallback : Nat, SeededRNG.setSeed (some 0) fallback = 0) ∧
    (∀ n : Nat, SeededRNG.nextSeed^[n] 0 = 0) ∧
    SeededRNG.float 0 = (0, 0) ∧
    SeededRNG.int32 0 = (0, 0) ∧
    (∀ lo hi : Int, randomRange lo hi 0 = (lo, 0)) ∧
    randomBool 0 = (true, 0) ∧
    (∀ bound : Int, bound ≠ 0 → randomInt32 bound 0 = (0, 0)) ∧
    randomRoomPurpose 0 = (some .extraSteps, 0) := by
  have hstep : SeededRNG.nextSeed 0 = 0 := by decide
  refine ⟨fun fallback => rfl, ?_, ?_, by decide, ?_, by decide, ?_, ?_⟩
  · intro n
    induction n with
    | zero => rfl
    | succ n ih => rw [Function.iterate_succ_apply', ih, hstep]
  · unfold SeededRNG.float
    rw [hstep]
    norm_num
  · intro lo hi
    unfold randomRange randomFloat SeededRNG.float
    rw [hstep]
    norm_num
  · intro bound hb
    unfold randomInt32 randomRange randomFloat SeededRNG.float
    rw [if_neg hb, hstep]
    norm_num
  · unfold randomRoomPurpose randomFloat SeededRNG.float
    rw [hstep]
    norm_num [pickEffect, EffectsOrder, Effects]

/-- Witness for C10's quantified conjunct at the concrete bound `3`. -/
theorem seed_zero_fixed_point_witness :
    (3 : Int) ≠ 0 ∧ randomInt32 3 0 = (0, 0) :=
  ⟨by norm_num, seed_zero_fixed_point.2.2.2.2.2.2.1 3 (by norm_num)⟩

/-- Setting a slot to a non-negative value keeps the ledger non-negative. -/
theorem nonneg_set (r : Resources) (item : Item) (v : Int) (hv : 0 ≤ v)
    (hr : r.nonneg) : (r.set item v).nonneg := by
  intro item' v' h
  cases item <;> cases item' <;>
    simp [Resources.set, Resources.get] at h <;>
    (try subst h) <;>
    first
      | exact hv
      | exact hr .steps _ h
      | exact hr .keys _ h
      | exact hr .lock _ h
      | exact hr .gems _ h

/-- Reading a non-negative ledger with the `?? 0` default is non-negative. -/
theorem nonneg_getD (r : Resources) (hr : r.nonneg) (item : Item) :
    0 ≤ (r.get item).getD 0 := by
  cases h : r.get item
  · simp
  · simpa using hr _ _ h

/-- `addResource` with a non-negative amount keeps the ledger non-negative. -/
theorem addResource_nonneg (g : Game) (item : Item) (amount : Int)
    (ha : 0 ≤ amount) (hg : g.resources.nonneg) :
    (g.addResource item amount).resources.nonneg := by
  unfold Game.addResource
  exact nonneg_set _ _ _ (by have := nonneg_getD g.resources hg item; omega) hg

/-- `removeResource` keeps the ledger non-negative for every amount,
because the subtraction is clamped at 0. -/
theorem removeResource_nonneg (g : Game) (item : Item) (amount : Int)
    (hg : g.resources.nonneg) :
    (g.removeResource item amount).resources.nonneg := by
  unfold Game.removeResource
  cases h : g.resources.get item
  · exact hg
  · exact nonneg_set _ _ _ (by split_ifs <;> omega) hg

/-- Every call sequence with non-negative amounts preserves ledger
non-negativity. -/
theorem applyResCalls_nonneg (calls : List ResCall) (g : Game)
    (h : ∀ c ∈ calls, 0 ≤ c.amount) (hg : g.resources.nonneg) :
    (applyResCalls g calls).resources.nonneg := by
  induction calls generalizing g with
  | nil => exact hg
  | cons c rest ih =>
      refine ih _ (fun c' hc' => h c' (List.mem_cons_of_mem _ hc')) ?_
      have hc := h c (List.mem_cons_self _ _)
      cases c with
      | add item amount => exact addResource_nonneg g item amount hc hg
      | remove item amount => exact removeResource_nonneg g item amount hg

/-- C6 counterexample: the claim quantifies over any amounts, but a
single `addResource("keys", -2)` call from the initial ledger drives
the `keys` counter to `-1 < 0` (`addResource` does not clamp). -/
theorem resource_floor_counterexample :
    (applyResCalls (newGame 0) [.add .keys (-2)]).resources.get .keys = some (-1) ∧
    ¬(0 : Int) ≤ -1 := by
  exact ⟨by decide, by decide⟩

/-- C6 (amended): for every sequence of `addResource`/`removeResource`
calls with non-negative amounts, starting from the initial ledger, the
stored count of every item stays `≥ 0` (every prefix of a sequence is
itself such a sequence, so the count never dips below 0 at any point). -/
theorem resource_floor (calls : List ResCall) (h : ∀ c ∈ calls, 0 ≤ c.amount) :
    Resources.nonneg (applyResCalls (newGame 0) calls).resources := by
  refine applyResCalls_nonneg calls (newGame 0) h ?_
  intro item v hv
  cases item <;> simp [newGame, Resources.get] at hv <;> omega

/-- Witness for C6 at a concrete call sequence. -/
theorem resource_floor_witness :
    (∀ c ∈ ([.add .keys 2, .remove .steps 50, .remove .gems 3, .add .gems 1] : List ResCall),
        0 ≤ c.amount) ∧
    Resources.nonneg
      (applyResCalls (newGame 0)
        [.add .keys 2, .remove .steps 50, .remove .gems 3, .add .gems 1]).resources :=
  ⟨by decide, resource_floor _ (by decide)⟩

/-- Every registry invocation leaves the last-effect message alone (the
mutations only touch the ledger and the running flag). -/
theorem invoke_setLast (e : EffectType) (g : Game) (t : String) :
    (Effects e).invoke { g with lastEffect := t }
      = { (Effects e).invoke g with lastEffect := t } := by
  cases e <;>
    simp only [Effects, Game.addResource, Game.removeResource, Game.setResource,
      Game.pause, Game.getResource]
  case taxes => cases h : g.resources.get .gems <;> rfl
  case shop => split_ifs <;> first | rfl | (split <;> rfl)

/-- Iterated invocations commute with overwriting the last-effect text. -/
theorem invoke_iterate_setLast (e : EffectType) (k : Nat) (g : Game) (t : String) :
    ((Effects e).invoke)^[k] { g with lastEffect := t }
      = { ((Effects e).invoke)^[k] g with lastEffect := t } := by
  induction k generalizing g with
  | zero => rfl
  | succ k ih =>
      rw [Function.iterate_succ_apply, invoke_setLast, ih, ← Function.iterate_succ_apply]

/-- While the trigger budget lasts, `k` calls of `enter()` on a room
whose effect has limit `N` apply the mutation `k` times, raise the
trigger count by `k` and record the trigger text. -/
theorem enterTimes_eq (e : EffectType) (N : Nat) (k : Nat) :
    ∀ (c : Nat) (room : Room) (g : Game),
    room.events.enter = e → (Effects e).triggerLimit = (N : Int) →
    room.triggerCount = c → c + k ≤ N →
    enterTimes k room g =
      ({ room with triggerCount := c + k },
       if k = 0 then g
       else { ((Effects e).invoke)^[k] g with lastEffect := (Effects e).triggerText }) := by
  induction k with
  | zero =>
      intro c room g he hN hc hk
      subst hc
      simp [enterTimes]
  | succ k ih =>
      intro c room g he hN hc hk
      have hne : ¬((Effects e).triggerLimit = -1) := by rw [hN]; omega
      have hlt : ((room.triggerCount : Int) < (Effects e).triggerLimit) := by
        rw [hN, hc]; exact_mod_cast (by omega : c < N)
      have step : room.enter g =
          ({ room with triggerCount := c + 1 },
           { (Effects e).invoke g with lastEffect := (Effects e).triggerText }) := by
        unfold Room.enter invokeEventWith
        rw [he, if_neg hne, if_pos hlt, hc]
      rw [enterTimes, step]
      dsimp only
      rw [ih (c + 1) { room with triggerCount := c + 1 }
            { (Effects e).invoke g with lastEffect := (Effects e).triggerText }
            he hN rfl (by omega)]
      cases k with
      | zero => simp
      | succ m =>
          rw [invoke_iterate_setLast, ← Function.iterate_succ_apply]
          simp only [Nat.succ_ne_zero, if_false, Prod.mk.injEq, Room.mk.injEq,
            and_true, true_and]
          omega

/-- `enterTimes` can also be peeled from the back. -/
theorem enterTimes_succ_back (n : Nat) (room : Room) (g : Game) :
    enterTimes (n + 1) room g =
      (enterTimes n room g).1.enter (enterTimes n room g).2 := by
  induction n generalizing room g with
  | zero =>
      cases hrg : room.enter g with
      | mk r' g' => simp [enterTimes, hrg]
  | succ n ih =>
      cases hrg : room.enter g with
      | mk r' g' =>
          rw [enterTimes, hrg]
          dsimp only
          rw [ih r' g']
          rw [show enterTimes (n + 1) room g = enterTimes n r' g' by rw [enterTimes, hrg]]

/-- C3: for a room whose bound enter-effect has `triggerLimit = N ≥ 0`
and a fresh trigger count, calling `enter()` N+1 times invokes the
effect's state mutation exactly N times (raising the room's
`triggerCount` to N), and the (N+1)-th call performs no mutation and
sets the last-effect message to the empty string: apart from the
last-effect text, the final game state is exactly the N-fold iterate of
the effect's mutation. -/
theorem trigger_limit_exhaustion (e : EffectType) (N : Nat) (room : Room) (g : Game)
    (he : room.events.enter = e) (hN : (Effects e).triggerLimit = (N : Int))
    (h0 : room.triggerCount = 0) :
    (enterTimes (N + 1) room g).1.triggerCount = N ∧
    (enterTimes (N + 1) room g).2.lastEffect = "" ∧
    { (enterTimes (N + 1) room g).2 with lastEffect := g.lastEffect } =
      { ((Effects e).invoke)^[N] g with lastEffect := g.lastEffect } := by
  have hmain := enterTimes_eq e N N 0 room g he hN h0 (by omega)
  rw [enterTimes_succ_back, hmain]
  dsimp only
  unfold Room.enter invokeEventWith
  dsimp only
  rw [he, hN]
  rw [if_neg (show ¬((N : Int) = -1) by omega)]
  rw [if_neg (show ¬(((0 + N : Nat) : Int) < (N : Int)) by push_cast; omega)]
  cases N with
  | zero => simp
  | succ m => simp

/-- Witness for C3: a room bound to the one-shot `money` effect,
entered twice from a fresh game. -/
theorem trigger_limit_exhaustion_witness :
    ({ defaultRoom with events := ⟨.money, .noop, .noop⟩ } : Room).events.enter = .money ∧
    (Effects .money).triggerLimit = ((1 : Nat) : Int) ∧
    ((enterTimes (1 + 1) { defaultRoom with events := ⟨.money, .noop, .noop⟩ } (newGame 0)).1.triggerCount = 1 ∧
     (enterTimes (1 + 1) { defaultRoom with events := ⟨.money, .noop, .noop⟩ } (newGame 0)).2.lastEffect = "" ∧
     { (enterTimes (1 + 1) { defaultRoom with events := ⟨.money, .noop, .noop⟩ } (newGame 0)).2 with
         lastEffect := (newGame 0).lastEffect } =
       { ((Effects .money).invoke)^[1] (newGame 0) with lastEffect := (newGame 0).lastEffect }) :=
  ⟨rfl, by decide,
   trigger_limit_exhaustion .money 1 { defaultRoom with events := ⟨.money, .noop, .noop⟩ }
     (newGame 0) rfl (by decide) rfl⟩

/-- C5: when the currently selected draft option needs a key and the
player holds 0 keys, `placeRoom()` is a silent no-op: it returns with
the whole game state (grid, draft, ledger, player, current state)
unchanged and surfaces no error. -/
theorem placeRoom_locked_silent (fuel : Nat) (g : Game)
    (h1 : (g.draft.options.get g.draft.index).needsKey = true)
    (h2 : g.getResource .keys = 0) :
    placeRoom fuel g = some g := by
  unfold placeRoom
  rw [if_pos ⟨h1, h2⟩]

/-- Witness for C5: a locked option selected with zero keys. -/
theorem placeRoom_locked_silent_witness :
    ((draftScenario lockedOption 0).draft.options.get
        (draftScenario lockedOption 0).draft.index).needsKey = true ∧
    (draftScenario lockedOption 0).getResource .keys = 0 ∧
    placeRoom 1 (draftScenario lockedOption 0) = some (draftScenario lockedOption 0) :=
  ⟨by decide, by decide, placeRoom_locked_silent 1 _ (by decide) (by decide)⟩

/-- The game component of `generateHallway` changes nothing but the
RNG seed. -/
theorem generateHallway_game (p : Coord) (d : Direction) (r : Room) (gg : Game) :
    (generateHallway p d r gg).2 = { gg with seed := (generateHallway p d r gg).2.seed } := by
  unfold generateHallway
  cases hrf : randomFloat gg.seed with
  | mk f s' =>
      simp only [hrf]
      split_ifs <;> rfl

/-- The room component of `generateHallway` changes nothing but the
hallway record. -/
theorem generateHallway_room (p : Coord) (d : Direction) (r : Room) (gg : Game) :
    (generateHallway p d r gg).1 = { r with hallways := (generateHallway p d r gg).1.hallways } := by
  unfold generateHallway
  cases hrf : randomFloat gg.seed with
  | mk f s' =>
      simp only [hrf]
      split_ifs <;> rfl

/-- Folding hallway generation over any direction list changes nothing
but the seed on the game side. -/
theorem foldHallways_game (l : List Direction) :
    ∀ acc : Room × Game,
    (l.foldl (fun acc d => generateHallway acc.2.draft.position d acc.1 acc.2) acc).2
      = { acc.2 with
            seed := (l.foldl (fun acc d => generateHallway acc.2.draft.position d acc.1 acc.2) acc).2.seed } := by
  induction l with
  | nil => intro acc; rfl
  | cons d rest ih =>
      intro acc
      simp only [List.foldl_cons]
      rw [ih (generateHallway acc.2.draft.position d acc.1 acc.2)]
      rw [generateHallway_game acc.2.draft.position d acc.1 acc.2]

/-- Folding hallway generation changes nothing but the hallway record
on the room side. -/
theorem foldHallways_room (l : List Direction) :
    ∀ acc : Room × Game,
    (l.foldl (fun acc d => generateHallway acc.2.draft.position d acc.1 acc.2) acc).1
      = { acc.1 with
            hallways := (l.foldl (fun acc d => generateHallway acc.2.draft.position d acc.1 acc.2) acc).1.hallways } := by
  induction l with
  | nil => intro acc; rfl
  | cons d rest ih =>
      intro acc
      simp only [List.foldl_cons]
      rw [ih (generateHallway acc.2.draft.position d acc.1 acc.2)]
      rw [generateHallway_room acc.2.draft.position d acc.1 acc.2]

/-- Regenerating a draft option never touches the resource ledger. -/
theorem generateDraftRoom_resources (i : Fin 3) (d : Direction) (g g' : Game)
    (h : generateDraftRoom i d g = some g') : g'.resources = g.resources := by
  unfold generateDraftRoom at h
  cases hr : randomRoomPurpose g.seed with
  | mk o s1 =>
      rw [hr] at h
      cases o with
      | none => simp at h
      | some purpose =>
          simp only [Option.some.injEq] at h
          subst h
          simp only []
          split_ifs <;>
            rw [foldHallways_game]

/-- The retry loop of `refreshDrafts` only returns states on which the
`canDraft` exit condition holds, and it never changes the ledger. -/
theorem refreshDraftsLoop_some (direction : Direction) (fuel : Nat) :
    ∀ g g' : Game, refreshDraftsLoop direction fuel g = some g' →
      (g'.getResource .keys != 0
        || g'.draft.options.toList.any fun room => !room.needsKey) = true ∧
      g'.resources = g.resources := by
  induction fuel with
  | zero => intro g g' h; simp [refreshDraftsLoop] at h
  | succ fuel ih =>
      intro g g' h
      rw [refreshDraftsLoop] at h
      cases h0 : generateDraftRoom 0 direction g with
      | none => rw [h0] at h; exact absurd h (by simp)
      | some g1 =>
          rw [h0] at h
          dsimp only at h
          cases h1 : generateDraftRoom 1 direction g1 with
          | none => rw [h1] at h; exact absurd h (by simp)
          | some g2 =>
              rw [h1] at h
              dsimp only at h
              cases h2 : generateDraftRoom 2 direction g2 with
              | none => rw [h2] at h; exact absurd h (by simp)
              | some g3 =>
                  rw [h2] at h
                  dsimp only at h
                  have hres : g3.resources = g.resources := by
                    rw [generateDraftRoom_resources 2 direction g2 g3 h2,
                        generateDraftRoom_resources 1 direction g1 g2 h1,
                        generateDraftRoom_resources 0 direction g g1 h0]
                  split_ifs at h with hc
                  · obtain rfl : g3 = g' := by simpa using h
                    exact ⟨hc, hres⟩
                  · obtain ⟨hcan, hres'⟩ := ih g3 g' h
                    exact ⟨hcan, by rw [hres', hres]⟩

/-- C2: whenever `refreshDrafts()` returns, either the player's `keys`
count is at least 1, or at least one of the three draft options has
`needsKey == false`; the three-option batch is regenerated in full in a
retry loop (modelled with fuel, since the source loop is unbounded)
until this condition holds.  The non-negativity hypothesis records the
ledger invariant of the real game (claim C6). -/
theorem refreshDrafts_fair (fuel : Nat) (g : Game) (hkeys : 0 ≤ g.getResource .keys) :
    ∀ g' ∈ refreshDrafts fuel g,
      1 ≤ g'.getResource .keys ∨
        ∃ room ∈ g'.draft.options.toList, room.needsKey = false := by
  intro g' h
  unfold refreshDrafts at h
  obtain ⟨hcan, hres⟩ := refreshDraftsLoop_some g.draft.direction fuel _ g' h
  rcases (Bool.or_eq_true _ _).mp hcan with hk | hany
  · left
    have hne : g'.getResource .keys ≠ 0 := by simpa using hk
    have : g'.getResource .keys = g.getResource .keys := by
      unfold Game.getResource
      rw [hres]
    omega
  · right
    obtain ⟨room, hmem, hroom⟩ := List.any_eq_true.mp hany
    exact ⟨room, hmem, by simpa using hroom⟩

/-- Witness for C2 at a fresh game: the refresh returns after one
round (the player starts with one key) and the fairness condition
holds on it. -/
theorem refreshDrafts_fair_witness :
    0 ≤ (newGame 0).getResource .keys ∧
    (refreshDrafts 1 (newGame 0)).isSome = true ∧
    ∀ g' ∈ refreshDrafts 1 (newGame 0),
      1 ≤ g'.getResource .keys ∨
        ∃ room ∈ g'.draft.options.toList, room.needsKey = false :=
  ⟨by decide, by with_unfolding_all decide, refreshDrafts_fair 1 (newGame 0) (by decide)⟩

/-- Reading back the option slot just written. -/
theorem Options3.get_set_self (o : Options3) (i : Fin 3) (r : Room) : (o.set i r).get i = r := by
  unfold Options3.get Options3.set
  split_ifs <;> rfl

/-- What `generateDraftRoom` writes into the regenerated slot: the rolled purpose as enter event, and an item list that is extended by one `keys` entry when the purpose is `extraKey` and cleared otherwise. -/
theorem generateDraftRoom_option (i : Fin 3) (d : Direction) (g g' : Game)
    (h : generateDraftRoom i d g = some g') :
    ∃ purpose : EffectType,
      (g'.draft.options.get i).events = ⟨purpose, .noop, .noop⟩ ∧
      (g'.draft.options.get i).items =
        (if purpose = .extraKey then (g.draft.options.get i).items ++ [.keys] else []) := by
  unfold generateDraftRoom at h
  cases hr : randomRoomPurpose g.seed with
  | mk o s1 =>
      rw [hr] at h
      cases o with
      | none => simp at h
      | some purpose =>
          refine ⟨purpose, ?_⟩
          simp only [Option.some.injEq] at h
          subst h
          dsimp only
          split_ifs with hp <;>
            rw [Options3.get_set_self] <;>
            dsimp only <;>
            rw [foldHallways_room] <;>
            simp [hp]

/-- C9: after every `generateDraftRoom(i, d)` call (given the items invariant on the incoming slot, which holds from `newGame` on), slot i's item list contains only `keys` entries, is non-empty exactly when the rolled enter effect is `extraKey`, and can grow to two `keys` entries because the `extraKey` branch pushes without clearing a list left by an earlier regeneration. -/
theorem draft_items_invariant (i : Fin 3) (d : Direction) (g g' : Game)
    (hpre : ∀ x ∈ (g.draft.options.get i).items, x = Item.keys)
    (h : generateDraftRoom i d g = some g') :
    (∀ x ∈ (g'.draft.options.get i).items, x = Item.keys) ∧
    ((g'.draft.options.get i).items ≠ [] ↔ (g'.draft.options.get i).events.enter = .extraKey) ∧
    ((g.draft.options.get i).items = [.keys] →
      (g'.draft.options.get i).events.enter = .extraKey →
      (g'.draft.options.get i).items = [.keys, .keys]) := by
  obtain ⟨purpose, hev, hit⟩ := generateDraftRoom_option i d g g' h
  have henter : (g'.draft.options.get i).events.enter = purpose := by rw [hev]
  by_cases hp : purpose = .extraKey
  · rw [if_pos hp] at hit
    refine ⟨?_, ?_, ?_⟩
    · intro x hx
      rw [hit] at hx
      rcases List.mem_append.mp hx with hx | hx
      · exact hpre x hx
      · simpa using hx
    · rw [hit, henter, hp]
      simp
    · intro hone _
      rw [hit, hone]
      rfl
  · rw [if_neg hp] at hit
    refine ⟨?_, ?_, ?_⟩
    · intro x hx
      rw [hit] at hx
      simp at hx
    · rw [hit, henter]
      simp [hp]
    · intro _ hcontra
      rw [henter] at hcontra
      exact absurd hcontra hp

/-- Only the ledger field of the state changes under `removeResource`. -/
theorem removeResource_eq (g : Game) (i : Item) (a : Int) :
    g.removeResource i a = { g with resources := (g.removeResource i a).resources } := by
  unfold Game.removeResource
  cases h : g.resources.get i <;> rfl

/-- Every registry invocation touches only the ledger and the running flag. -/
theorem invoke_eq (e : EffectType) (g : Game) :
    (Effects e).invoke g
      = { g with resources := ((Effects e).invoke g).resources,
                 running := ((Effects e).invoke g).running } := by
  cases e <;>
    simp only [Effects, Game.addResource, Game.removeResource, Game.setResource,
      Game.pause, Game.getResource]
  case taxes => cases h : g.resources.get .gems <;> rfl
  case shop => split_ifs <;> first | rfl | (split <;> rfl)

/-- Registry invocations are determined by the ledger and running flag. -/
theorem invoke_congr (e : EffectType) (g h : Game)
    (hres : g.resources = h.resources) (hrun : g.running = h.running) :
    ((Effects e).invoke g).resources = ((Effects e).invoke h).resources ∧
    ((Effects e).invoke g).running = ((Effects e).invoke h).running := by
  cases e <;>
    simp only [Effects, Game.addResource, Game.removeResource, Game.setResource,
      Game.pause, Game.getResource, hres, hrun] <;>
    try exact ⟨trivial, trivial⟩
  case taxes => cases hh : h.resources.get .gems <;> simp [hres, hrun]
  case shop =>
    split_ifs <;>
      first
        | exact ⟨hres, hrun⟩
        | (cases hh : (h.resources.set Item.keys ((h.resources.get Item.keys).getD 0 + 1)).get Item.gems <;>
           simp [hres, hrun])

/-- The ledger result of `removeResource` depends only on the ledger. -/
theorem removeResource_resources_congr (g h : Game) (i : Item) (a : Int)
    (hres : g.resources = h.resources) :
    (g.removeResource i a).resources = (h.removeResource i a).resources := by
  unfold Game.removeResource
  rw [hres]
  cases hh : h.resources.get i <;> simp [hres]

/-- Coordinates with equal components are equal. -/
theorem coord_ext (c c' : Coord) (h1 : c.row = c'.row) (h2 : c.col = c'.col) : c = c' := by
  cases c; cases c'; simp_all

/-- Reading back the cell just written returns the written room. -/
theorem atCoord_set_same (g : Game) (c : Coord) (r : Room) :
    (g.setRoomAtCoord c r).atCoord c = r := by
  simp [Game.setRoomAtCoord, Game.atCoord]

/-- Writing one grid cell leaves every other cell unchanged. -/
theorem atCoord_set_ne (g : Game) (c c' : Coord) (r : Room) (h : c' ≠ c) :
    (g.setRoomAtCoord c r).atCoord c' = g.atCoord c' := by
  simp only [Game.setRoomAtCoord, Game.atCoord]
  rw [if_neg]
  rintro ⟨h1, h2⟩
  exact h (coord_ext c' c h1 h2)

/-- Registry invocations leave the grid, player, draft and dimensions alone. -/
theorem invoke_proj (e : EffectType) (g : Game) :
    ((Effects e).invoke g).player = g.player ∧
    ((Effects e).invoke g).currentState = g.currentState ∧
    ((Effects e).invoke g).draft = g.draft ∧
    ((Effects e).invoke g).grid = g.grid ∧
    ((Effects e).invoke g).rows = g.rows ∧
    ((Effects e).invoke g).cols = g.cols := by
  cases e <;>
    simp only [Effects, Game.addResource, Game.removeResource, Game.setResource,
      Game.pause, Game.getResource] <;>
    try exact ⟨trivial, trivial, trivial, trivial, trivial, trivial⟩
  case taxes => cases hh : g.resources.get .gems <;> simp
  case shop =>
    split_ifs <;>
      first
        | exact ⟨trivial, trivial, trivial, trivial, trivial, trivial⟩
        | (cases hh : (g.resources.set Item.keys ((g.resources.get Item.keys).getD 0 + 1)).get Item.gems <;>
           simp)

/-- Entering a room leaves the grid, player, draft and dimensions alone. -/
theorem enter_proj (room : Room) (g : Game) :
    (room.enter g).2.player = g.player ∧
    (room.enter g).2.currentState = g.currentState ∧
    (room.enter g).2.draft = g.draft ∧
    (room.enter g).2.grid = g.grid ∧
    (room.enter g).2.rows = g.rows ∧
    (room.enter g).2.cols = g.cols := by
  unfold Room.enter invokeEventWith
  split_ifs <;>
    simp [invoke_proj room.events.enter g]

/-- The ledger result of `enter()` is determined by ledger and running flag. -/
theorem enter_congr (room : Room) (g h : Game)
    (hres : g.resources = h.resources) (hrun : g.running = h.running) :
    (room.enter g).2.resources = (room.enter h).2.resources ∧
    (room.enter g).1 = (room.enter h).1 := by
  unfold Room.enter invokeEventWith
  split_ifs <;>
    simp [(invoke_congr room.events.enter g h hres hrun).1, hres, hrun]

/-- The room returned by `enter()` does not depend on the game state. -/
theorem enter_room_indep (room : Room) (g h : Game) :
    (room.enter g).1 = (room.enter h).1 := by
  unfold Room.enter invokeEventWith
  split_ifs <;> rfl

/-- One reconciliation step only rewrites a neighbor cell of the draft position. -/
theorem reconcileStep_proj (nr : Room) (gg : Game) (d : Direction) :
    (reconcileStep nr gg d).resources = gg.resources ∧
    (reconcileStep nr gg d).player = gg.player ∧
    (reconcileStep nr gg d).draft = gg.draft ∧
    (reconcileStep nr gg d).currentState = gg.currentState ∧
    (reconcileStep nr gg d).atCoord gg.draft.position = gg.atCoord gg.draft.position := by
  unfold reconcileStep
  dsimp only
  split_ifs <;>
    refine ⟨rfl, rfl, rfl, rfl, ?_⟩ <;>
    first
      | rfl
      | (rw [atCoord_set_ne]
         exact Ne.symm (tileTowards_ne gg.draft.position d))

/-- The whole reconciliation pass only rewrites neighbor cells of the draft position. -/
theorem reconcileFold_proj (nr : Room) (l : List Direction) :
    ∀ gg : Game,
    (l.foldl (reconcileStep nr) gg).resources = gg.resources ∧
    (l.foldl (reconcileStep nr) gg).player = gg.player ∧
    (l.foldl (reconcileStep nr) gg).draft = gg.draft ∧
    (l.foldl (reconcileStep nr) gg).currentState = gg.currentState ∧
    (l.foldl (reconcileStep nr) gg).atCoord gg.draft.position = gg.atCoord gg.draft.position := by
  induction l with
  | nil => intro gg; exact ⟨rfl, rfl, rfl, rfl, rfl⟩
  | cons d rest ih =>
      intro gg
      simp only [List.foldl_cons]
      obtain ⟨h1, h2, h3, h4, h5⟩ := ih (reconcileStep nr gg d)
      obtain ⟨p1, p2, p3, p4, p5⟩ := reconcileStep_proj nr gg d
      refine ⟨h1.trans p1, h2.trans p2, h3.trans p3, h4.trans p4, ?_⟩
      rw [show (reconcileStep nr gg d).draft.position = gg.draft.position from by rw [p3]] at h5
      exact h5.trans p5
/-- Movement into a revealed, connected neighbor: invoke its enter effect, move the player there and pay one step (source: the `else if` branch of `updatePlayerPosition`). -/
theorem updatePlayerPosition_revealed (fuel : Nat) (d : Direction) (gg : Game)
    (hrun : gg.running = true)
    (hvalid : gg.validCoord (tileTowards gg.player d))
    (hsteps : ¬(gg.getResource .steps ≤ 0))
    (hh1 : ((gg.atCoord gg.player).hallways.get d).enabled = true)
    (hh2 : ((gg.atCoord gg.player).hallways.get d).status ≠ HallStatus.blocked)
    (hrev : (gg.atCoord (tileTowards gg.player d)).revealed = true)
    (hb : ((gg.atCoord (tileTowards gg.player d)).hallways.get (opposite d)).enabled = true) :
    updatePlayerPosition fuel d gg =
      some ((((((gg.atCoord (tileTowards gg.player d)).enter gg).2.setRoomAtCoord
                (tileTowards gg.player d)
                ((gg.atCoord (tileTowards gg.player d)).enter gg).1).movePlayerToCoord
              (tileTowards gg.player d)).removeResource .steps 1)) := by
  unfold updatePlayerPosition
  simp only [hrun, Bool.not_true, Bool.false_eq_true, if_false]
  rw [if_neg (not_not_intro hvalid)]
  rw [if_neg hsteps]
  rw [if_pos ⟨hh1, hh2⟩]
  rw [show gg.isHiddenCoord (tileTowards gg.player d) = false by
        simp [Game.isHiddenCoord, hrev]]
  simp only [Bool.false_eq_true, if_false]
  rw [if_pos hb]

/-- Reading the slot just written. -/
theorem Resources.get_set_slot (r : Resources) (i : Item) (v : Int) :
    (r.set i v).get i = some v := by
  cases i <;> rfl

/-- Writing one ledger slot leaves the others unchanged. -/
theorem Resources.get_set_ne (r : Resources) (i j : Item) (hij : j ≠ i) (v : Int) :
    (r.set i v).get j = r.get j := by
  cases i <;> cases j <;> simp_all [Resources.set, Resources.get]

/-- Removing one item does not change another item count. -/
theorem getResource_removeResource_ne (g : Game) (i j : Item) (a : Int) (hij : j ≠ i) :
    (g.removeResource i a).getResource j = g.getResource j := by
  unfold Game.removeResource Game.getResource
  cases h : g.resources.get i
  · rfl
  · dsimp only
    rw [Resources.get_set_ne _ _ _ hij]

/-- Removing one unit of a positive counter decrements it by exactly one. -/
theorem getResource_removeResource_sub (g : Game) (i : Item)
    (h1 : 1 ≤ g.getResource i) :
    (g.removeResource i 1).getResource i = g.getResource i - 1 := by
  unfold Game.getResource at h1
  unfold Game.removeResource Game.getResource
  cases h : g.resources.get i
  · rw [h] at h1; simp at h1
  · rename_i v
    rw [h] at h1
    simp only [Option.getD_some] at h1
    dsimp only
    rw [Resources.get_set_slot]
    simp only [Option.getD_some, h, Option.getD_some]
    omega


/-- Grid rows are unchanged by `removeResource`. -/
theorem removeResource_rows (g : Game) (i : Item) (a : Int) :
    (g.removeResource i a).rows = g.rows := by rw [removeResource_eq]

/-- Grid columns are unchanged by `removeResource`. -/
theorem removeResource_cols (g : Game) (i : Item) (a : Int) :
    (g.removeResource i a).cols = g.cols := by rw [removeResource_eq]

/-- The grid is unchanged by `removeResource`. -/
theorem removeResource_grid (g : Game) (i : Item) (a : Int) :
    (g.removeResource i a).grid = g.grid := by rw [removeResource_eq]

/-- The player is unchanged by `removeResource`. -/
theorem removeResource_player (g : Game) (i : Item) (a : Int) :
    (g.removeResource i a).player = g.player := by rw [removeResource_eq]

/-- The running flag is unchanged by `removeResource`. -/
theorem removeResource_running (g : Game) (i : Item) (a : Int) :
    (g.removeResource i a).running = g.running := by rw [removeResource_eq]

/-- The draft is unchanged by `removeResource`. -/
theorem removeResource_draft (g : Game) (i : Item) (a : Int) :
    (g.removeResource i a).draft = g.draft := by rw [removeResource_eq]

/-- The state-machine state is unchanged by `removeResource`. -/
theorem removeResource_currentState (g : Game) (i : Item) (a : Int) :
    (g.removeResource i a).currentState = g.currentState := by rw [removeResource_eq]

/-- Grid writes leave the draft alone. -/
theorem setRoomAtCoord_draft (g : Game) (c : Coord) (r : Room) :
    (g.setRoomAtCoord c r).draft = g.draft := rfl

/-- Grid writes leave the player alone. -/
theorem setRoomAtCoord_player (g : Game) (c : Coord) (r : Room) :
    (g.setRoomAtCoord c r).player = g.player := rfl

/-- Grid writes leave the running flag alone. -/
theorem setRoomAtCoord_running (g : Game) (c : Coord) (r : Room) :
    (g.setRoomAtCoord c r).running = g.running := rfl

/-- Grid writes leave the ledger alone. -/
theorem setRoomAtCoord_resources (g : Game) (c : Coord) (r : Room) :
    (g.setRoomAtCoord c r).resources = g.resources := rfl

/-- Grid writes leave the row count alone. -/
theorem setRoomAtCoord_rows (g : Game) (c : Coord) (r : Room) :
    (g.setRoomAtCoord c r).rows = g.rows := rfl

/-- Grid writes leave the column count alone. -/
theorem setRoomAtCoord_cols (g : Game) (c : Coord) (r : Room) :
    (g.setRoomAtCoord c r).cols = g.cols := rfl

/-- Moving the player leaves the draft alone. -/
theorem movePlayer_draft (g : Game) (c : Coord) :
    (g.movePlayerToCoord c).draft = g.draft := rfl

/-- Moving the player sets the player coordinate. -/
theorem movePlayer_player (g : Game) (c : Coord) :
    (g.movePlayerToCoord c).player = c := rfl

/-- Moving the player leaves the ledger alone. -/
theorem movePlayer_resources (g : Game) (c : Coord) :
    (g.movePlayerToCoord c).resources = g.resources := rfl

/-- Moving the player leaves the grid alone. -/
theorem movePlayer_grid (g : Game) (c : Coord) :
    (g.movePlayerToCoord c).grid = g.grid := rfl

/-- Cell reads are determined by the grid. -/
theorem atCoord_grid_congr (g h : Game) (hg : g.grid = h.grid) (c : Coord) :
    g.atCoord c = h.atCoord c := by
  unfold Game.atCoord
  rw [hg]

/-- C4 (amended): committing a locked draft option while holding a key consumes exactly one key before the enter effect runs, writes the copy (with needsKey cleared, coord set, and triggerCount advanced by the one enter invocation) into the grid at draft.position, advances the player there, decrements steps by 1 after the effect, and returns to the move state.  The final ledger is exactly: remove one key, apply the enter effect, remove one step — so the plain net "keys-1, steps-1" of the original claim holds whenever the effect itself leaves keys and steps alone, e.g. for the noop binding (last conjunct). -/
theorem placeRoom_locked_commit (fuel : Nat) (g : Game)
    (hsel : (g.draft.options.get g.draft.index).needsKey = true)
    (hkeys : 1 ≤ g.getResource .keys)
    (hrun : g.running = true)
    (hpos : g.draft.position = tileTowards g.player g.draft.direction)
    (hval : g.validCoord g.draft.position)
    (hsteps : 1 ≤ g.getResource .steps)
    (hhall : ((g.atCoord g.player).hallways.get g.draft.direction).enabled = true)
    (hhall2 : ((g.atCoord g.player).hallways.get g.draft.direction).status ≠ HallStatus.blocked)
    (hrev : (g.draft.options.get g.draft.index).revealed = true)
    (hback : ((g.draft.options.get g.draft.index).hallways.get
        (opposite g.draft.direction)).enabled = true) :
    (placeRoom fuel g).isSome = true ∧
    ((placeRoom fuel g).getD g).currentState = .move ∧
    ((placeRoom fuel g).getD g).player = g.draft.position ∧
    ((placeRoom fuel g).getD g).atCoord g.draft.position =
      (Room.enter { g.draft.options.get g.draft.index with
                      needsKey := false, coord := g.draft.position } g).1 ∧
    ((placeRoom fuel g).getD g).resources =
      ((Room.enter { g.draft.options.get g.draft.index with
                       needsKey := false, coord := g.draft.position }
          (g.removeResource .keys 1)).2.removeResource .steps 1).resources ∧
    ((g.draft.options.get g.draft.index).events.enter = .noop →
      ((placeRoom fuel g).getD g).getResource .keys = g.getResource .keys - 1 ∧
      ((placeRoom fuel g).getD g).getResource .steps = g.getResource .steps - 1) := by
  have hkeysne : ¬(g.getResource .keys = 0) := by omega
  have hplayer_ne : g.player ≠ g.draft.position := by
    rw [hpos]; exact Ne.symm (tileTowards_ne g.player g.draft.direction)
  unfold placeRoom
  dsimp only
  rw [if_neg (fun h => hkeysne h.2), if_pos hsel]
  dsimp only
  rw [removeResource_draft]
  unfold Game.placeRoom
  dsimp only
  have hval2 : (g.removeResource Item.keys 1).validCoord g.draft.position := by
    unfold Game.validCoord Game.valid at hval ⊢
    rw [removeResource_rows, removeResource_cols]
    exact hval
  rw [if_pos hval2]
  simp only [setRoomAtCoord_draft, removeResource_draft]
  set C : Room := { g.draft.options.get g.draft.index with
                      needsKey := false, coord := g.draft.position } with hC
  set G2 : Game := (g.removeResource Item.keys 1).setRoomAtCoord g.draft.position C with hG2
  have hplayer2 : G2.player = g.player := by
    rw [hG2, setRoomAtCoord_player, removeResource_player]
  have htile : tileTowards G2.player g.draft.direction = g.draft.position := by
    rw [hplayer2, ← hpos]
  have hrun2 : G2.running = true := by
    rw [hG2, setRoomAtCoord_running, removeResource_running]; exact hrun
  have hvalid2 : G2.validCoord (tileTowards G2.player g.draft.direction) := by
    rw [htile, hG2]
    show (g.removeResource Item.keys 1).validCoord g.draft.position
    exact hval2
  have hsteps2 : ¬(G2.getResource .steps ≤ 0) := by
    have hst : G2.getResource .steps = g.getResource .steps := by
      rw [hG2]
      show (g.removeResource Item.keys 1).getResource .steps = _
      exact getResource_removeResource_ne g .keys .steps 1 (by decide)
    omega
  have hatplayer : G2.atCoord G2.player = g.atCoord g.player := by
    rw [hplayer2, hG2, atCoord_set_ne _ _ _ _ hplayer_ne]
    exact atCoord_grid_congr _ g (removeResource_grid g .keys 1) _
  have hh1 : ((G2.atCoord G2.player).hallways.get g.draft.direction).enabled = true := by
    rw [hatplayer]; exact hhall
  have hh2 : ((G2.atCoord G2.player).hallways.get g.draft.direction).status
      ≠ HallStatus.blocked := by
    rw [hatplayer]; exact hhall2
  have hattile : G2.atCoord (tileTowards G2.player g.draft.direction) = C := by
    rw [htile, hG2]; exact atCoord_set_same _ _ _
  have hrev2 : (G2.atCoord (tileTowards G2.player g.draft.direction)).revealed = true := by
    rw [hattile, hC]; exact hrev
  have hb2 : ((G2.atCoord (tileTowards G2.player g.draft.direction)).hallways.get
      (opposite g.draft.direction)).enabled = true := by
    rw [hattile, hC]; exact hback
  rw [updatePlayerPosition_revealed fuel g.draft.direction G2 hrun2 hvalid2 hsteps2 hh1 hh2 hrev2 hb2]
  dsimp only
  rw [hattile, htile]
  set GU : Game := (((C.enter G2).2.setRoomAtCoord g.draft.position (C.enter G2).1).movePlayerToCoord
      g.draft.position).removeResource Item.steps 1 with hGU
  set L : Game := { rows := GU.rows, cols := GU.cols, grid := GU.grid, player := GU.player,
                    exitCoord := GU.exitCoord, currentState := GU.currentState,
                    resources := GU.resources, running := GU.running, lastEffect := GU.lastEffect,
                    draft := { index := 0, position := GU.draft.position,
                               direction := GU.draft.direction, options := GU.draft.options },
                    seed := GU.seed } with hL
  obtain ⟨he_player, he_state, he_draft, he_grid, he_rows, he_cols⟩ := enter_proj C G2
  have hG2draft : G2.draft = g.draft := by
    rw [hG2, setRoomAtCoord_draft, removeResource_draft]
  have hGUdraft : GU.draft = g.draft := by
    rw [hGU, removeResource_draft, movePlayer_draft, setRoomAtCoord_draft, he_draft, hG2draft]
  have hGUplayer : GU.player = g.draft.position := by
    rw [hGU, removeResource_player, movePlayer_player]
  have hGUatpos : GU.atCoord g.draft.position = (C.enter G2).1 := by
    rw [show GU.atCoord g.draft.position
          = ((C.enter G2).2.setRoomAtCoord g.draft.position (C.enter G2).1).atCoord
              g.draft.position from
        atCoord_grid_congr _ _ (by rw [hGU, removeResource_grid, movePlayer_grid]) _]
    exact atCoord_set_same _ _ _
  have hGUresources : GU.resources =
      ((Room.enter C (g.removeResource Item.keys 1)).2.removeResource Item.steps 1).resources := by
    rw [hGU]
    refine removeResource_resources_congr _ _ .steps 1 ?_
    show (C.enter G2).2.resources = (C.enter (g.removeResource Item.keys 1)).2.resources
    exact (enter_congr C G2 (g.removeResource Item.keys 1)
      (by rw [hG2, setRoomAtCoord_resources])
      (by rw [hG2, setRoomAtCoord_running])).1
  obtain ⟨f_res, f_player, f_draft, f_state, f_at⟩ := reconcileFold_proj C DIRECTION_VALUES L
  have hLdraftpos : L.draft.position = g.draft.position := by
    rw [hL]
    show GU.draft.position = _
    rw [hGUdraft]
  refine ⟨rfl, rfl, ?_, ?_, ?_, ?_⟩
  · show (List.foldl (reconcileStep C) L DIRECTION_VALUES).player = g.draft.position
    rw [f_player]
    show GU.player = _
    rw [hGUplayer]
  · show (List.foldl (reconcileStep C) L DIRECTION_VALUES).atCoord g.draft.position
        = (C.enter g).1
    rw [← hLdraftpos, f_at, hLdraftpos]
    show GU.atCoord g.draft.position = (C.enter g).1
    rw [hGUatpos]
    exact enter_room_indep C G2 g
  · show (List.foldl (reconcileStep C) L DIRECTION_VALUES).resources
        = ((Room.enter C (g.removeResource Item.keys 1)).2.removeResource Item.steps 1).resources
    rw [f_res]
    show GU.resources = _
    exact hGUresources
  · intro henoop
    have hCenter : C.events.enter = EffectType.noop := by rw [hC]; exact henoop
    have henter : (C.enter (g.removeResource Item.keys 1)).2
        = { (g.removeResource Item.keys 1) with lastEffect := "" } := by
      unfold Room.enter invokeEventWith
      rw [hCenter]
      rfl
    have hres_eq : ∀ j : Item,
        ((List.foldl (reconcileStep C) L DIRECTION_VALUES).setState .move).getResource j
          = (({ (g.removeResource Item.keys 1) with lastEffect := "" } : Game).removeResource
              Item.steps 1).getResource j := by
      intro j
      unfold Game.getResource
      have hrr : ((List.foldl (reconcileStep C) L DIRECTION_VALUES).setState .move).resources
          = ((Room.enter C (g.removeResource Item.keys 1)).2.removeResource
              Item.steps 1).resources := by
        show (List.foldl (reconcileStep C) L DIRECTION_VALUES).resources = _
        rw [f_res]
        show GU.resources = _
        exact hGUresources
      rw [hrr, henter]
    constructor
    · show ((List.foldl (reconcileStep C) L DIRECTION_VALUES).setState .move).getResource
          Item.keys = _
      rw [hres_eq Item.keys]
      rw [getResource_removeResource_ne _ .steps .keys 1 (by decide)]
      show (g.removeResource Item.keys 1).getResource Item.keys = _
      exact getResource_removeResource_sub g .keys hkeys
    · show ((List.foldl (reconcileStep C) L DIRECTION_VALUES).setState .move).getResource
          Item.steps = _
      rw [hres_eq Item.steps]
      have hst1 : 1 ≤ ({ (g.removeResource Item.keys 1) with lastEffect := "" } : Game).getResource
          Item.steps := by
        show 1 ≤ (g.removeResource Item.keys 1).getResource Item.steps
        rw [getResource_removeResource_ne g .keys .steps 1 (by decide)]
        exact hsteps
      rw [getResource_removeResource_sub _ .steps hst1]
      show (g.removeResource Item.keys 1).getResource Item.steps - 1 = _
      rw [getResource_removeResource_ne g .keys .steps 1 (by decide)]

/-- Witness for C9 at seed 2338 (whose next roll picks `extraKey`) with
a slot that already carries a key item: the regenerated list holds two
`keys` entries. -/
theorem draft_items_invariant_witness :
    (∀ x ∈ (c9State.draft.options.get 0).items, x = Item.keys) ∧
    generateDraftRoom 0 NORTH c9State = some c9Result ∧
    ((∀ x ∈ (c9Result.draft.options.get 0).items, x = Item.keys) ∧
     ((c9Result.draft.options.get 0).items ≠ [] ↔
        (c9Result.draft.options.get 0).events.enter = .extraKey) ∧
     ((c9State.draft.options.get 0).items = [.keys] →
        (c9Result.draft.options.get 0).events.enter = .extraKey →
        (c9Result.draft.options.get 0).items = [.keys, .keys])) ∧
    (c9Result.draft.options.get 0).items = [.keys, .keys] :=
  ⟨by decide, by with_unfolding_all rfl,
   draft_items_invariant 0 NORTH c9State c9Result (by decide) (by with_unfolding_all rfl),
   by with_unfolding_all decide⟩

/-- C4 counterexample: the claim quantifies over every enter-effect the
option may carry, but with the `garden` effect (which resets `steps` to
41 before the movement's step deduction) a committed locked placement
from 40 steps ends at 40 steps, not 39 — the key was consumed and the
state machine moved on, yet the steps count is not "decremented by 1". -/
theorem placeRoom_locked_commit_counterexample :
    (draftScenario { lockedOption with events := ⟨.garden, .noop, .noop⟩ } 1).getResource
        .steps = 40 ∧
    (placeRoom 1 (draftScenario { lockedOption with events := ⟨.garden, .noop, .noop⟩ } 1)).map
      (fun g' => g'.getResource .keys) = some 0 ∧
    (placeRoom 1 (draftScenario { lockedOption with events := ⟨.garden, .noop, .noop⟩ } 1)).map
      (fun g' => g'.getResource .steps) = some 40 ∧
    ¬(40 : Int) = 40 - 1 :=
  ⟨by decide, by decide, by decide, by decide⟩

/-- Witness for C4: committing a locked noop option with one key from
the standard scenario consumes the key and one step. -/
theorem placeRoom_locked_commit_witness :
    ((draftScenario lockedOption 1).draft.options.get
        (draftScenario lockedOption 1).draft.index).needsKey = true ∧
    1 ≤ (draftScenario lockedOption 1).getResource .keys ∧
    (placeRoom 1 (draftScenario lockedOption 1)).isSome = true ∧
    ((placeRoom 1 (draftScenario lockedOption 1)).getD
        (draftScenario lockedOption 1)).getResource .keys
      = (draftScenario lockedOption 1).getResource .keys - 1 ∧
    ((placeRoom 1 (draftScenario lockedOption 1)).getD
        (draftScenario lockedOption 1)).getResource .steps
      = (draftScenario lockedOption 1).getResource .steps - 1 := by
  have h := placeRoom_locked_commit 1 (draftScenario lockedOption 1) (by decide) (by decide)
    (by decide) (by decide) (by decide) (by decide) (by decide) (by decide) (by decide) (by decide)
  exact ⟨by decide, by decide, h.1, (h.2.2.2.2.2 (by decide)).1, (h.2.2.2.2.2 (by decide)).2⟩

end RedPrincess
